import Mathlib

/-
Verification of the book-catalog query/pagination service (`book/views.py`,
`book/models.py`, `book/serializers.py`).

The Django queryset pipeline is shallowly embedded as functions on lists:
a queryset is a `List BooksBook` (one entry per SQL result row, so a join
across a many-to-many relation can put the same book in the list several
times), each filter step of `BookListView.get` becomes a list
transformation, and the pagination layer (`rest_framework.pagination.
PageNumberPagination` as configured by `BookPagination`, backed by
`django.core.paginator.Paginator`) is embedded from the library's
documented semantics: `count` in the paginated envelope is
`page.paginator.count` (the total row count of the queryset), an invalid
or out-of-range page number raises `NotFound` (HTTP 404), `page_size`
falls back to 25 on a malformed value and is capped at 100.

String primitives mirror the Python ones on ASCII data, implemented by
structural recursion over the character list so that every definition
evaluates inside the kernel: `pyStrip` for `str.strip`, `pySplit` for
`str.split(',')`, `lowerString` for `str.lower`, and `icontains` for
Django's case-insensitive substring lookup.
-/

/-- ASCII whitespace as recognised by `str.strip` (space, tab, LF, CR). -/
def isSpaceChar (c : Char) : Bool := c == ' ' || c == '\t' || c == '\n' || c == '\r'

/-- Drop the leading run of whitespace characters. -/
def dropLeadingSpace : List Char → List Char
  | [] => []
  | c :: cs => if isSpaceChar c then dropLeadingSpace cs else c :: cs

/-- Drop leading and trailing whitespace. -/
def trimChars (cs : List Char) : List Char :=
  dropLeadingSpace (dropLeadingSpace cs.reverse).reverse

/-- Python `str.strip()` on ASCII whitespace. -/
def pyStrip (s : String) : String := ⟨trimChars s.data⟩

/-- Split a character list on commas; like `str.split(',')` the result is
never empty and keeps empty pieces. -/
def splitOnComma : List Char → List (List Char)
  | [] => [[]]
  | c :: cs =>
    if c == ',' then [] :: splitOnComma cs
    else
      match splitOnComma cs with
      | [] => [[c]]
      | t :: ts => (c :: t) :: ts

/-- Python `raw.split(',')`. -/
def pySplit (s : String) : List String := (splitOnComma s.data).map (fun cs => ⟨cs⟩)

/-- Python `str.lower()` on ASCII data. -/
def lowerString (s : String) : String := ⟨s.data.map Char.toLower⟩

/-- `str.isdigit` on ASCII data: nonempty and all characters decimal digits. -/
def isDigits (s : String) : Bool := !s.data.isEmpty && s.data.all Char.isDigit

/-- Numeric value of a digit string (`int(x)` for an `isdigit` string). -/
def digitsToNat (cs : List Char) : Nat :=
  cs.foldl (fun acc c => acc * 10 + (c.toNat - 48)) 0

/-- Python `int(string)`: surrounding whitespace stripped, optional sign,
decimal digits; `none` models the `ValueError` path. -/
def parseIntPy (s : String) : Option Int :=
  match (pyStrip s).data with
  | '+' :: rest =>
      if !rest.isEmpty && rest.all Char.isDigit then some (Int.ofNat (digitsToNat rest)) else none
  | '-' :: rest =>
      if !rest.isEmpty && rest.all Char.isDigit then some (-(Int.ofNat (digitsToNat rest))) else none
  | cs =>
      if !cs.isEmpty && cs.all Char.isDigit then some (Int.ofNat (digitsToNat cs)) else none

/-- The comma-list idiom of `BookListView.get`:
`[x.strip() for x in raw.split(',') if x.strip()]`. -/
def tokens (s : String) : List String :=
  ((pySplit s).map pyStrip).filter (fun t => t ≠ "")

/-- `startsWithChars p l`: `p` is an initial run of `l`. -/
def startsWithChars : List Char → List Char → Bool
  | [], _ => true
  | _ :: _, [] => false
  | p :: ps, c :: cs => p == c && startsWithChars ps cs

/-- `hasInfixChars p l`: `p` occurs contiguously inside `l`. -/
def hasInfixChars (p : List Char) : List Char → Bool
  | [] => p.isEmpty
  | c :: cs => startsWithChars p (c :: cs) || hasInfixChars p cs

/-- Django's `icontains` lookup: case-insensitive substring containment of
`pat` in `hay`. -/
def icontains (hay pat : String) : Bool :=
  hasInfixChars (lowerString pat).data (lowerString hay).data

/-- `books_author` row (`BooksAuthor` in models.py). -/
structure BooksAuthor where
  name : String
  birth_year : Option Int
  death_year : Option Int
deriving DecidableEq, Repr

/-- `books_format` row (`BooksFormat` in models.py), minus its book FK,
which is represented by ownership in the book's `formats` list. -/
structure BooksFormat where
  mime_type : String
  url : String
deriving DecidableEq, Repr

/-- `books_book` row (`BooksBook` in models.py) together with its related
rows: `authors`, `languages` (codes), `subjects` (names), `bookshelves`
(names) hold one entry per junction-table row, and `formats` one entry per
owned `books_format` row. -/
structure BooksBook where
  id : Nat
  gutenberg_id : Int
  media_type : String
  title : Option String
  download_count : Option Int
  authors : List BooksAuthor
  languages : List String
  subjects : List String
  bookshelves : List String
  formats : List BooksFormat
deriving DecidableEq, Repr

/-- The wire shape produced by `BookSerializer` in serializers.py. -/
structure BookDTO where
  id : Nat
  title : Option String
  gutenberg_id : Int
  download_count : Option Int
  authors : List BooksAuthor
  languages : List String
  subjects : List String
  bookshelves : List String
  formats : List BooksFormat
deriving DecidableEq, Repr

/-- `BookSerializer`: project a book row and its prefetched relations. -/
def serializeBook (b : BooksBook) : BookDTO :=
  ⟨b.id, b.title, b.gutenberg_id, b.download_count, b.authors, b.languages,
   b.subjects, b.bookshelves, b.formats⟩

/-- The `ORDER BY download_count DESC` key comparison: `dcGe x y` holds when
`x` may come no later than `y` in descending order. `NULL` download counts
are modelled as the lowest value. -/
def dcGe : Option Int → Option Int → Bool
  | none, none => true
  | none, some _ => false
  | some _, none => true
  | some x, some y => decide (y ≤ x)

/-- The download-count order as a relation, for use with the sort. -/
def downloadOrder (a b : BooksBook) : Prop :=
  dcGe a.download_count b.download_count = true

instance : DecidableRel downloadOrder :=
  fun a b => inferInstanceAs (Decidable (dcGe a.download_count b.download_count = true))

instance : IsTrans BooksBook downloadOrder where
  trans a b c hab hbc := by
    revert hab hbc
    unfold downloadOrder
    cases a.download_count <;> cases b.download_count <;> cases c.download_count <;>
      simp [dcGe] <;> omega

instance : IsTotal BooksBook downloadOrder where
  total a b := by
    unfold downloadOrder
    cases a.download_count <;> cases b.download_count <;> simp [dcGe] <;> omega

/-- Row order produced by `.order_by('-download_count')`.  The SQL contract
only fixes the relative order of rows with different keys; the model
realises one valid execution by sorting the store's row order stably. -/
def orderByDownloadDesc (l : List BooksBook) : List BooksBook :=
  List.insertionSort downloadOrder l

/-- The gutenberg_id parse in views.py line 131:
`[int(x.strip()) for x in gutenberg_ids.split(',') if x.strip().isdigit()]`. -/
def gutenbergIdTokens (s : String) : List Int :=
  (((pySplit s).map pyStrip).filter isDigits).map
    (fun t => Int.ofNat (digitsToNat t.data))

/-- views.py lines 128-137: `filter(gutenberg_id__in=ids)` when the raw
parameter is truthy and the parsed id list nonempty. A scalar-column filter:
no join, no row duplication. -/
def applyGutenbergFilter (raw : Option String) (qs : List BooksBook) : List BooksBook :=
  match raw with
  | none => qs
  | some s =>
    if s = "" then qs
    else
      let ids := gutenbergIdTokens s
      if ids.isEmpty then qs
      else qs.filter (fun b => ids.contains b.gutenberg_id)

/-- views.py lines 140-149: `filter(languages__code__in=codes)`. The join
through the `books_book_languages` junction emits one output row per
matching related row, which the embedding renders as a `flatMap` producing
one copy of the book per matching language entry. No `.distinct()` is
applied at this step in the source. -/
def applyLanguageFilter (raw : Option String) (qs : List BooksBook) : List BooksBook :=
  match raw with
  | none => qs
  | some s =>
    if s = "" then qs
    else
      let codes := (tokens s).map lowerString
      if codes.isEmpty then qs
      else qs.flatMap (fun b => ((b.languages.filter (fun c => codes.contains c)).map (fun _ => b)))

/-- Helper for `distinctById`: drop any row whose id was already seen. -/
def distinctByIdAux (seen : List Nat) : List BooksBook → List BooksBook
  | [] => []
  | b :: rest =>
    if b.id ∈ seen then distinctByIdAux seen rest
    else b :: distinctByIdAux (b.id :: seen) rest

/-- `SELECT DISTINCT` over book rows: since the book's primary key is among
the selected columns, it collapses equal rows, keeping result order; the
embedding keeps the first row of each id. -/
def distinctById (l : List BooksBook) : List BooksBook := distinctByIdAux [] l

/-- The OR-of-Q-objects predicate of the topic filter: some token occurs
case-insensitively in some subject name or some bookshelf name. -/
def topicMatches (ts : List String) (b : BooksBook) : Bool :=
  ts.any (fun t => b.subjects.any (fun s => icontains s t)
    || b.bookshelves.any (fun s => icontains s t))

/-- views.py lines 151-164: `filter(Q(subjects__name__icontains=t) |
Q(bookshelves__name__icontains=t) | ...).distinct()`. The `.distinct()` in
the same queryset expression collapses the fan-out of the OR-join (and any
duplication already present), so the step is a predicate filter followed by
full deduplication. -/
def applyTopicFilter (raw : Option String) (qs : List BooksBook) : List BooksBook :=
  match raw with
  | none => qs
  | some s =>
    if s = "" then qs
    else
      let ts := tokens s
      if ts.isEmpty then qs
      else distinctById (qs.filter (topicMatches ts))

/-- Predicate of the mime_type filter: some owned format has a listed type. -/
def mimeMatches (ms : List String) (b : BooksBook) : Bool :=
  b.formats.any (fun f => ms.contains f.mime_type)

/-- views.py lines 167-176: `filter(booksformat__mime_type__in=l).distinct()`. -/
def applyMimeFilter (raw : Option String) (qs : List BooksBook) : List BooksBook :=
  match raw with
  | none => qs
  | some s =>
    if s = "" then qs
    else
      let ms := tokens s
      if ms.isEmpty then qs
      else distinctById (qs.filter (mimeMatches ms))

/-- Predicate of the author filter: some token occurs case-insensitively in
some author name. -/
def authorMatches (ts : List String) (b : BooksBook) : Bool :=
  ts.any (fun t => b.authors.any (fun a => icontains a.name t))

/-- views.py lines 179-191: OR of `Q(authors__name__icontains=t)` over the
tokens, then `.distinct()`. -/
def applyAuthorFilter (raw : Option String) (qs : List BooksBook) : List BooksBook :=
  match raw with
  | none => qs
  | some s =>
    if s = "" then qs
    else
      let ts := tokens s
      if ts.isEmpty then qs
      else distinctById (qs.filter (authorMatches ts))

/-- Predicate of the title filter: a `NULL` title matches nothing (SQL
`LIKE` on `NULL`); otherwise case-insensitive substring on the title. -/
def titleMatches (ts : List String) (b : BooksBook) : Bool :=
  ts.any (fun t => match b.title with
    | none => false
    | some ti => icontains ti t)

/-- views.py lines 194-206: OR of `Q(title__icontains=t)` over the tokens,
then `.distinct()`. -/
def applyTitleFilter (raw : Option String) (qs : List BooksBook) : List BooksBook :=
  match raw with
  | none => qs
  | some s =>
    if s = "" then qs
    else
      let ts := tokens s
      if ts.isEmpty then qs
      else distinctById (qs.filter (titleMatches ts))

/-- Raw query parameters of a list request; `none` is an absent parameter,
`some ""` a present-but-empty one (both falsy in the Python guards). -/
structure RequestParams where
  gutenberg_id : Option String
  language : Option String
  topic : Option String
  mime_type : Option String
  author : Option String
  title : Option String
  page : Option String
  page_size : Option String
deriving DecidableEq, Repr

/-- The composed queryset of `BookListView.get` before pagination: base
order by download count descending, then the six filter steps in source
order. -/
def composeQuery (store : List BooksBook) (p : RequestParams) : List BooksBook :=
  applyTitleFilter p.title
    (applyAuthorFilter p.author
      (applyMimeFilter p.mime_type
        (applyTopicFilter p.topic
          (applyLanguageFilter p.language
            (applyGutenbergFilter p.gutenberg_id
              (orderByDownloadDesc store))))))

/-- `PageNumberPagination.get_page_size` with `page_size_query_param =
'page_size'`, `page_size = 25`, `max_page_size = 100`: an absent or
malformed or non-positive value falls back to 25; a positive value is
capped at 100 (`_positive_int(..., strict=True, cutoff=100)`). -/
def getPageSize (raw : Option String) : Nat :=
  match raw with
  | none => 25
  | some s =>
    match parseIntPy s with
    | none => 25
    | some n => if n ≤ 0 then 25 else min n.toNat 100

/-- `django.core.paginator.Paginator.num_pages` with `orphans = 0` and
`allow_empty_first_page = True`: `ceil(max(1, count) / per_page)`. -/
def numPages (count per : Nat) : Nat := (max 1 count + per - 1) / per

/-- `get_page_number` plus `Paginator.validate_number`: an absent or empty
parameter means page 1, `'last'` means the last page, otherwise the value
must parse as an integer within `[1, num_pages]`; `none` models the
`InvalidPage` exception that `paginate_queryset` converts into a `NotFound`
(HTTP 404) response. -/
def resolvePageNumber (raw : Option String) (npages : Nat) : Option Nat :=
  match raw with
  | none => some 1
  | some s =>
    if s = "" then some 1
    else if s = "last" then some npages
    else
      match parseIntPy s with
      | none => none
      | some n =>
        if n < 1 then none
        else if npages < n.toNat then (if n = 1 then some 1 else none)
        else some n.toNat

/-- The query component of a `next`/`previous` link URL.  DRF builds these
links from `request.build_absolute_uri()` with `replace_query_param` /
`remove_query_param`: the raw request parameters are echoed unchanged
(`parse_qs(..., keep_blank_values=True)` then re-encoded) except `page`,
which is replaced by the target page number — or removed entirely for a
previous link pointing at page 1.  Scheme, host and path are constant for
a request and omitted; two links of one request differ exactly when their
query components differ. -/
structure PageLink where
  gutenberg_id : Option String
  language : Option String
  topic : Option String
  mime_type : Option String
  author : Option String
  title : Option String
  page : Option Nat
  page_size : Option String
deriving DecidableEq, Repr

/-- `replace_query_param` (when `pageVal = some n`) or `remove_query_param`
(when `pageVal = none`) applied to the request's own URI: every raw
parameter except `page` is echoed as sent. -/
def makeLink (p : RequestParams) (pageVal : Option Nat) : PageLink :=
  ⟨p.gutenberg_id, p.language, p.topic, p.mime_type, p.author, p.title,
   pageVal, p.page_size⟩

/-- The wire envelope of a successful list response: `count`, `next`,
`previous`, `results` from `get_paginated_response`, plus the
`count_total` key the view adds.  `next`/`previous` carry the link's query
component (`none` when the link is null). -/
structure ListResponse where
  count : Nat
  next : Option PageLink
  previous : Option PageLink
  results : List BookDTO
  count_total : Nat
deriving DecidableEq, Repr

/-- Outcome of a list request: a 404 from an invalid page, or a 200 with
the envelope. -/
inductive ListOutcome where
  | notFound
  | ok (r : ListResponse)
deriving DecidableEq, Repr

/-- `BookListView.get`: compose the queryset, count it
(`queryset.count()`), paginate (`BookPagination`), serialize the page and
emit the envelope. `count` is `page.paginator.count` — the queryset's
total row count — and `count_total` is the `total_count` the view computed
from the same queryset; the page slice is rows
`[(page-1)*per, page*per)`; `next` (present iff `page < num_pages`) echoes
the raw request parameters with `page` replaced by `page+1`
(`get_next_link`); `previous` (present iff `page > 1`) does the same with
`page-1`, except that a previous link to page 1 removes the `page`
parameter (`get_previous_link`).  The view's unpaginated fallback (lines
233-240) is unreachable because `BookPagination.page_size` is always
set. -/
def bookListView (store : List BooksBook) (p : RequestParams) : ListOutcome :=
  let qs := composeQuery store p
  let totalCount := qs.length
  let per := getPageSize p.page_size
  let np := numPages totalCount per
  match resolvePageNumber p.page np with
  | none => ListOutcome.notFound
  | some num =>
    ListOutcome.ok
      { count := totalCount
        next := if num < np then some (makeLink p (some (num + 1))) else none
        previous :=
          if 1 < num then
            (if num - 1 = 1 then some (makeLink p none)
             else some (makeLink p (some (num - 1))))
          else none
        results := ((qs.drop ((num - 1) * per)).take per).map serializeBook
        count_total := totalCount }

/-- Outcome of a detail request: 404 or a 200 with the DTO. -/
inductive DetailOutcome where
  | notFound
  | ok (d : BookDTO)
deriving DecidableEq, Repr

/-- `BookDetailView.get`: `get_object_or_404(BooksBook.objects..., pk=pk)`
— the book whose primary key is `pk`, or the 404 signal when none exists. -/
def bookDetailView (store : List BooksBook) (pk : Nat) : DetailOutcome :=
  match store.find? (fun b => b.id == pk) with
  | none => DetailOutcome.notFound
  | some b => DetailOutcome.ok (serializeBook b)

/-- A list outcome with each link collapsed to the page it names: the
error status, `count`, link presence and target pages, `results` and
`count_total` — everything in the response except the raw request
parameters echoed inside the link URLs. -/
def responseCore (o : ListOutcome) :
    Option (Nat × Option (Option Nat) × Option (Option Nat) × List BookDTO × Nat) :=
  match o with
  | ListOutcome.notFound => none
  | ListOutcome.ok r =>
    some (r.count, r.next.map PageLink.page, r.previous.map PageLink.page,
      r.results, r.count_total)

/-- The stripped, nonempty comma-tokens a raw parameter contributes: an
absent parameter contributes none.  Every filter step factors through this
function (`applyGutenbergFilter_eq` and friends below). -/
def optTokens (raw : Option String) : List String :=
  match raw with
  | none => []
  | some s => tokens s

/-- Token-level form of the gutenberg_id step. -/
def gutenbergStep (ts : List String) (qs : List BooksBook) : List BooksBook :=
  let ids := (ts.filter isDigits).map (fun t => Int.ofNat (digitsToNat t.data))
  if ids.isEmpty then qs
  else qs.filter (fun b => ids.contains b.gutenberg_id)

/-- Token-level form of the language step. -/
def languageStep (ts : List String) (qs : List BooksBook) : List BooksBook :=
  let codes := ts.map lowerString
  if codes.isEmpty then qs
  else qs.flatMap (fun b => ((b.languages.filter (fun c => codes.contains c)).map (fun _ => b)))

/-- Token-level form of the filter-then-`.distinct()` steps (topic,
mime_type, author, title). -/
def filterDistinctStep (m : List String → BooksBook → Bool) (ts : List String)
    (qs : List BooksBook) : List BooksBook :=
  if ts.isEmpty then qs
  else distinctById (qs.filter (m ts))

/-- Spec reading of the gutenberg_id criterion (4.1): inactive, or the
book's catalog id is one of the listed integers. -/
def specGutenbergOK (raw : Option String) (b : BooksBook) : Prop :=
  let ids := ((optTokens raw).filter isDigits).map (fun t => Int.ofNat (digitsToNat t.data))
  ids = [] ∨ b.gutenberg_id ∈ ids

/-- Spec reading of the language criterion (4.1): inactive, or some
language code of the book is among the lowercased tokens (exact match,
values ORed). -/
def specLanguageOK (raw : Option String) (b : BooksBook) : Prop :=
  let codes := (optTokens raw).map lowerString
  codes = [] ∨ ∃ c ∈ b.languages, c ∈ codes

/-- Spec reading of the topic criterion (4.1): inactive, or some token
case-insensitively occurs in **either** some subject name **or** some
bookshelf name — OR across both fields and across all tokens. -/
def specTopicOK (raw : Option String) (b : BooksBook) : Prop :=
  optTokens raw = [] ∨
    ∃ t ∈ optTokens raw,
      (∃ s ∈ b.subjects, icontains s t = true) ∨ (∃ s ∈ b.bookshelves, icontains s t = true)

/-- Spec reading of the mime_type criterion (4.1): inactive, or some owned
format has one of the listed MIME types. -/
def specMimeOK (raw : Option String) (b : BooksBook) : Prop :=
  optTokens raw = [] ∨ ∃ f ∈ b.formats, f.mime_type ∈ optTokens raw

/-- Spec reading of the author criterion (4.1): inactive, or some token
case-insensitively occurs in some author name. -/
def specAuthorOK (raw : Option String) (b : BooksBook) : Prop :=
  optTokens raw = [] ∨ ∃ t ∈ optTokens raw, ∃ a ∈ b.authors, icontains a.name t = true

/-- Spec reading of the title criterion (4.1): inactive, or some token
case-insensitively occurs in the book's title (a `NULL` title matches
nothing). -/
def specTitleOK (raw : Option String) (b : BooksBook) : Prop :=
  optTokens raw = [] ∨
    ∃ t ∈ optTokens raw, ∃ ti, b.title = some ti ∧ icontains ti t = true

/-- Spec reading of the full filter combination (4.2): each active filter
parameter is ANDed with the others, values within one parameter are ORed
(inside the individual criteria). -/
def specMatches (p : RequestParams) (b : BooksBook) : Prop :=
  specGutenbergOK p.gutenberg_id b ∧ specLanguageOK p.language b ∧
    specTopicOK p.topic b ∧ specMimeOK p.mime_type b ∧
    specAuthorOK p.author b ∧ specTitleOK p.title b

/-- Primary-key integrity of a table of book rows: equal ids, equal rows. -/
def IdInjective (l : List BooksBook) : Prop :=
  ∀ a ∈ l, ∀ c ∈ l, a.id = c.id → a = c

/-- A request with every parameter absent. -/
def emptyParams : RequestParams := ⟨none, none, none, none, none, none, none, none⟩

/-- Concrete store row: downloads 100, English. -/
def bookAlpha : BooksBook := ⟨1, 10, "Text", some "Alpha", some 100, [], ["en"], [], [], []⟩

/-- Concrete store row: downloads 50, French. -/
def bookBeta : BooksBook := ⟨2, 20, "Text", some "Beta", some 50, [], ["fr"], [], [], []⟩

/-- Concrete store row related to two languages, with subjects, an author
and a format; the shape that makes the language join fan out. -/
def bookDual : BooksBook :=
  ⟨3, 30, "Text", some "Gamma", some 70, [⟨"Mark Twain", some 1835, some 1910⟩],
   ["en", "fr"], ["Children stories", "Adventure"], ["Best Books Ever"],
   [⟨"text/html", "http://x/3.html"⟩]⟩

/-- Concrete store row tied with `bookTieTwo` on download count. -/
def bookTieOne : BooksBook := ⟨1, 10, "Text", some "TieOne", some 5, [], [], [], [], []⟩

/-- Concrete store row tied with `bookTieOne` on download count. -/
def bookTieTwo : BooksBook := ⟨2, 20, "Text", some "TieTwo", some 5, [], [], [], [], []⟩

/-! Factoring every filter step through its stripped-nonempty token list. -/

theorem tokens_empty_string : tokens "" = [] := by decide

theorem gutenbergIdTokens_eq (s : String) :
    gutenbergIdTokens s =
      ((tokens s).filter isDigits).map (fun t => Int.ofNat (digitsToNat t.data)) := by
  unfold gutenbergIdTokens tokens
  congr 1
  rw [List.filter_filter]
  apply List.filter_congr
  intro t _
  by_cases h : t = ""
  · subst h; rfl
  · simp [h]

theorem applyGutenbergFilter_eq (raw : Option String) (qs : List BooksBook) :
    applyGutenbergFilter raw qs = gutenbergStep (optTokens raw) qs := by
  cases raw with
  | none => rfl
  | some s =>
    by_cases hs : s = ""
    · subst hs
      simp [applyGutenbergFilter, optTokens, tokens_empty_string, gutenbergStep]
    · simp only [applyGutenbergFilter, if_neg hs, optTokens, gutenbergStep,
        gutenbergIdTokens_eq]

theorem applyLanguageFilter_eq (raw : Option String) (qs : List BooksBook) :
    applyLanguageFilter raw qs = languageStep (optTokens raw) qs := by
  cases raw with
  | none => rfl
  | some s =>
    by_cases hs : s = ""
    · subst hs
      simp [applyLanguageFilter, optTokens, tokens_empty_string, languageStep]
    · simp only [applyLanguageFilter, if_neg hs, optTokens, languageStep]

theorem applyTopicFilter_eq (raw : Option String) (qs : List BooksBook) :
    applyTopicFilter raw qs = filterDistinctStep topicMatches (optTokens raw) qs := by
  cases raw with
  | none => rfl
  | some s =>
    by_cases hs : s = ""
    · subst hs
      simp [applyTopicFilter, optTokens, tokens_empty_string, filterDistinctStep]
    · simp only [applyTopicFilter, if_neg hs, optTokens, filterDistinctStep]

theorem applyMimeFilter_eq (raw : Option String) (qs : List BooksBook) :
    applyMimeFilter raw qs = filterDistinctStep mimeMatches (optTokens raw) qs := by
  cases raw with
  | none => rfl
  | some s =>
    by_cases hs : s = ""
    · subst hs
      simp [applyMimeFilter, optTokens, tokens_empty_string, filterDistinctStep]
    · simp only [applyMimeFilter, if_neg hs, optTokens, filterDistinctStep]

theorem applyAuthorFilter_eq (raw : Option String) (qs : List BooksBook) :
    applyAuthorFilter raw qs = filterDistinctStep authorMatches (optTokens raw) qs := by
  cases raw with
  | none => rfl
  | some s =>
    by_cases hs : s = ""
    · subst hs
      simp [applyAuthorFilter, optTokens, tokens_empty_string, filterDistinctStep]
    · simp only [applyAuthorFilter, if_neg hs, optTokens, filterDistinctStep]

theorem applyTitleFilter_eq (raw : Option String) (qs : List BooksBook) :
    applyTitleFilter raw qs = filterDistinctStep titleMatches (optTokens raw) qs := by
  cases raw with
  | none => rfl
  | some s =>
    by_cases hs : s = ""
    · subst hs
      simp [applyTitleFilter, optTokens, tokens_empty_string, filterDistinctStep]
    · simp only [applyTitleFilter, if_neg hs, optTokens, filterDistinctStep]

theorem composeQuery_eq_steps (store : List BooksBook) (p : RequestParams) :
    composeQuery store p =
      filterDistinctStep titleMatches (optTokens p.title)
        (filterDistinctStep authorMatches (optTokens p.author)
          (filterDistinctStep mimeMatches (optTokens p.mime_type)
            (filterDistinctStep topicMatches (optTokens p.topic)
              (languageStep (optTokens p.language)
                (gutenbergStep (optTokens p.gutenberg_id)
                  (orderByDownloadDesc store)))))) := by
  unfold composeQuery
  rw [applyGutenbergFilter_eq, applyLanguageFilter_eq, applyTopicFilter_eq,
    applyMimeFilter_eq, applyAuthorFilter_eq, applyTitleFilter_eq]

/-- C10 counterexample: `language='en, fr,'` and `language='en,fr'` with
`page_size=1` over two matching books do not produce identical responses —
the `next` link echoes the raw query parameter, so the two link URLs
differ while everything else agrees. -/
theorem rawParamsEchoedInLinks_counterexample :
    bookListView [bookAlpha, bookBeta]
        ⟨none, some "en, fr,", none, none, none, none, none, some "1"⟩ ≠
      bookListView [bookAlpha, bookBeta]
        ⟨none, some "en,fr", none, none, none, none, none, some "1"⟩ := by decide

/-- C10 amended: for every filter parameter, comma-separated tokens are
stripped of surrounding whitespace and empty tokens are dropped before
matching: two requests whose raw filter strings yield the same stripped,
nonempty token lists (e.g. `en, fr,` versus `en,fr`) and that agree on the
pagination parameters produce responses that are identical in error
status, `count`, `count_total`, `results`, and the presence and target
page of `next`/`previous` — everything except the raw request parameters
that DRF echoes verbatim inside the link URLs, on which the responses
differ whenever a link is present. -/
theorem tokenEqualParams_sameResponseCore (store : List BooksBook) (p₁ p₂ : RequestParams)
    (hg : optTokens p₁.gutenberg_id = optTokens p₂.gutenberg_id)
    (hl : optTokens p₁.language = optTokens p₂.language)
    (ht : optTokens p₁.topic = optTokens p₂.topic)
    (hm : optTokens p₁.mime_type = optTokens p₂.mime_type)
    (ha : optTokens p₁.author = optTokens p₂.author)
    (hti : optTokens p₁.title = optTokens p₂.title)
    (hp : p₁.page = p₂.page) (hps : p₁.page_size = p₂.page_size) :
    responseCore (bookListView store p₁) = responseCore (bookListView store p₂) := by
  have hq : composeQuery store p₁ = composeQuery store p₂ := by
    rw [composeQuery_eq_steps, composeQuery_eq_steps, hg, hl, ht, hm, ha, hti]
  simp only [bookListView, hq, hp, hps]
  cases hres : resolvePageNumber p₂.page
      (numPages (composeQuery store p₂).length (getPageSize p₂.page_size)) with
  | none => rfl
  | some num =>
    by_cases hnext : num < numPages (composeQuery store p₂).length (getPageSize p₂.page_size) <;>
      by_cases hprev : 1 < num <;>
        by_cases hprev1 : num - 1 = 1 <;>
          simp [responseCore, makeLink, hnext, hprev, hprev1]

/-- C10 amended witness: `language='en, fr,'` and `language='en,fr'` with
`page_size=1` — the same inputs as the counterexample — agree on the
link-collapsed response even though the full responses differ. -/
theorem tokenEqualParams_sameResponseCore_witness :
    responseCore (bookListView [bookAlpha, bookBeta]
        ⟨none, some "en, fr,", none, none, none, none, none, some "1"⟩) =
      responseCore (bookListView [bookAlpha, bookBeta]
        ⟨none, some "en,fr", none, none, none, none, none, some "1"⟩) :=
  tokenEqualParams_sameResponseCore [bookAlpha, bookBeta]
    ⟨none, some "en, fr,", none, none, none, none, none, some "1"⟩
    ⟨none, some "en,fr", none, none, none, none, none, some "1"⟩
    (by decide) (by decide) (by decide) (by decide) (by decide) (by decide)
    (by decide) (by decide)

/-! Membership through each step of the composed query. -/

theorem mem_orderByDownloadDesc {l : List BooksBook} {b : BooksBook} :
    b ∈ orderByDownloadDesc l ↔ b ∈ l := List.mem_insertionSort downloadOrder

theorem mem_gutenbergStep {ts : List String} {qs : List BooksBook} {b : BooksBook} :
    b ∈ gutenbergStep ts qs ↔
      b ∈ qs ∧
        ((ts.filter isDigits).map (fun t => Int.ofNat (digitsToNat t.data)) = [] ∨
          b.gutenberg_id ∈ (ts.filter isDigits).map (fun t => Int.ofNat (digitsToNat t.data))) := by
  simp only [gutenbergStep]
  by_cases h : ((ts.filter isDigits).map (fun t => Int.ofNat (digitsToNat t.data))).isEmpty
  · rw [if_pos h]
    exact ⟨fun hb => ⟨hb, Or.inl (List.isEmpty_iff.mp h)⟩, fun hb => hb.1⟩
  · rw [if_neg h, List.mem_filter]
    have hne := fun hc => h (List.isEmpty_iff.mpr hc)
    constructor
    · rintro ⟨hb, hc⟩
      exact ⟨hb, Or.inr (by simpa [List.contains, List.elem_iff] using hc)⟩
    · rintro ⟨hb, hmap | hmem⟩
      · exact absurd hmap hne
      · exact ⟨hb, by simpa [List.contains, List.elem_iff] using hmem⟩

theorem mem_languageStep {ts : List String} {qs : List BooksBook} {b : BooksBook} :
    b ∈ languageStep ts qs ↔
      b ∈ qs ∧ (ts.map lowerString = [] ∨ ∃ c ∈ b.languages, c ∈ ts.map lowerString) := by
  simp only [languageStep]
  by_cases h : (ts.map lowerString).isEmpty
  · rw [if_pos h]
    exact ⟨fun hb => ⟨hb, Or.inl (List.isEmpty_iff.mp h)⟩, fun hb => hb.1⟩
  · rw [if_neg h]
    have hne := fun hc => h (List.isEmpty_iff.mpr hc)
    rw [List.mem_flatMap]
    constructor
    · rintro ⟨a, ha, hb⟩
      rw [List.mem_map] at hb
      obtain ⟨c, hc, rfl⟩ := hb
      rw [List.mem_filter] at hc
      exact ⟨ha, Or.inr ⟨c, hc.1, by simpa [List.contains, List.elem_iff] using hc.2⟩⟩
    · rintro ⟨hb, hmap | ⟨c, hc, hcm⟩⟩
      · exact absurd hmap hne
      · refine ⟨b, hb, ?_⟩
        rw [List.mem_map]
        refine ⟨c, ?_, rfl⟩
        rw [List.mem_filter]
        exact ⟨hc, by simpa [List.contains, List.elem_iff] using hcm⟩

theorem mem_of_mem_distinctByIdAux {seen : List Nat} {l : List BooksBook} {x : BooksBook}
    (h : x ∈ distinctByIdAux seen l) : x ∈ l := by
  induction l generalizing seen with
  | nil => simpa [distinctByIdAux] using h
  | cons b rest ih =>
    rw [distinctByIdAux] at h
    by_cases hm : b.id ∈ seen
    · rw [if_pos hm] at h
      exact List.mem_cons_of_mem _ (ih h)
    · rw [if_neg hm] at h
      rcases List.mem_cons.mp h with rfl | h'
      · exact List.mem_cons_self _ _
      · exact List.mem_cons_of_mem _ (ih h')

theorem mem_distinctByIdAux {seen : List Nat} {l : List BooksBook} {x : BooksBook}
    (hinj : ∀ a ∈ l, ∀ c ∈ l, a.id = c.id → a = c) :
    x ∈ distinctByIdAux seen l ↔ x ∈ l ∧ x.id ∉ seen := by
  induction l generalizing seen with
  | nil => simp [distinctByIdAux]
  | cons b rest ih =>
    have hrest : ∀ a ∈ rest, ∀ c ∈ rest, a.id = c.id → a = c := fun a ha c hc =>
      hinj a (List.mem_cons_of_mem _ ha) c (List.mem_cons_of_mem _ hc)
    rw [distinctByIdAux]
    by_cases hm : b.id ∈ seen
    · rw [if_pos hm, ih hrest]
      constructor
      · rintro ⟨hx, hns⟩
        exact ⟨List.mem_cons_of_mem _ hx, hns⟩
      · rintro ⟨hx, hns⟩
        rcases List.mem_cons.mp hx with rfl | hx'
        · exact absurd hm hns
        · exact ⟨hx', hns⟩
    · rw [if_neg hm, List.mem_cons, ih hrest]
      constructor
      · rintro (rfl | ⟨hx, hns⟩)
        · exact ⟨List.mem_cons_self _ _, hm⟩
        · exact ⟨List.mem_cons_of_mem _ hx, fun hc => hns (List.mem_cons_of_mem _ hc)⟩
      · rintro ⟨hx, hns⟩
        rcases List.mem_cons.mp hx with rfl | hx'
        · exact Or.inl rfl
        · by_cases hid : x.id = b.id
          · exact Or.inl (hinj x (List.mem_cons_of_mem _ hx') b (List.mem_cons_self _ _) hid)
          · exact Or.inr ⟨hx', fun hc => (List.mem_cons.mp hc).elim hid hns⟩

theorem mem_distinctById {l : List BooksBook} {x : BooksBook}
    (hinj : ∀ a ∈ l, ∀ c ∈ l, a.id = c.id → a = c) :
    x ∈ distinctById l ↔ x ∈ l := by
  unfold distinctById
  rw [mem_distinctByIdAux hinj]
  simp

theorem mem_filterDistinctStep {m : List String → BooksBook → Bool} {ts : List String}
    {qs : List BooksBook} {b : BooksBook}
    (hinj : ∀ a ∈ qs, ∀ c ∈ qs, a.id = c.id → a = c) :
    b ∈ filterDistinctStep m ts qs ↔ b ∈ qs ∧ (ts = [] ∨ m ts b = true) := by
  unfold filterDistinctStep
  by_cases h : ts.isEmpty
  · rw [if_pos h]
    rw [List.isEmpty_iff] at h
    simp [h]
  · rw [if_neg h]
    rw [List.isEmpty_iff] at h
    have hf : ∀ a ∈ qs.filter (m ts), ∀ c ∈ qs.filter (m ts), a.id = c.id → a = c :=
      fun a ha c hc => hinj a (List.mem_filter.mp ha).1 c (List.mem_filter.mp hc).1
    rw [mem_distinctById hf, List.mem_filter]
    simp [h]

theorem subset_filterDistinctStep {m : List String → BooksBook → Bool} {ts : List String}
    {qs : List BooksBook} {x : BooksBook} (h : x ∈ filterDistinctStep m ts qs) : x ∈ qs := by
  unfold filterDistinctStep at h
  by_cases he : ts.isEmpty
  · rwa [if_pos he] at h
  · rw [if_neg he] at h
    exact (List.mem_filter.mp (mem_of_mem_distinctByIdAux h)).1

theorem idInjective_of_subset {l l' : List BooksBook} (hsub : ∀ x, x ∈ l' → x ∈ l)
    (hinj : IdInjective l) : IdInjective l' :=
  fun a ha c hc => hinj a (hsub a ha) c (hsub c hc)

theorem topicMatches_iff {ts : List String} {b : BooksBook} :
    topicMatches ts b = true ↔
      ∃ t ∈ ts, (∃ s ∈ b.subjects, icontains s t = true) ∨
        ∃ s ∈ b.bookshelves, icontains s t = true := by
  simp [topicMatches, List.any_eq_true]

theorem mimeMatches_iff {ts : List String} {b : BooksBook} :
    mimeMatches ts b = true ↔ ∃ f ∈ b.formats, f.mime_type ∈ ts := by
  simp [mimeMatches, List.any_eq_true, List.contains, List.elem_iff]

theorem authorMatches_iff {ts : List String} {b : BooksBook} :
    authorMatches ts b = true ↔ ∃ t ∈ ts, ∃ a ∈ b.authors, icontains a.name t = true := by
  simp [authorMatches, List.any_eq_true]

theorem titleMatches_iff {ts : List String} {b : BooksBook} :
    titleMatches ts b = true ↔
      ∃ t ∈ ts, ∃ ti, b.title = some ti ∧ icontains ti t = true := by
  cases hb : b.title <;> simp [titleMatches, List.any_eq_true, hb]

/-- C6: over any store with primary-key integrity, a book is in the composed
query iff it is in the store and satisfies the AND of the active filters,
where values inside one parameter are ORed; in particular the topic filter
is the union over tokens of case-insensitive substring matches against
subject names OR bookshelf names. -/
theorem composeQuery_mem_iff (store : List BooksBook) (p : RequestParams) (b : BooksBook)
    (hinj : IdInjective store) :
    b ∈ composeQuery store p ↔ b ∈ store ∧ specMatches p b := by
  rw [composeQuery_eq_steps]
  have h0 : IdInjective (orderByDownloadDesc store) :=
    idInjective_of_subset (fun x hx => mem_orderByDownloadDesc.mp hx) hinj
  have h1 : IdInjective (gutenbergStep (optTokens p.gutenberg_id) (orderByDownloadDesc store)) :=
    idInjective_of_subset (fun x hx => (mem_gutenbergStep.mp hx).1) h0
  have h2 : IdInjective (languageStep (optTokens p.language)
      (gutenbergStep (optTokens p.gutenberg_id) (orderByDownloadDesc store))) :=
    idInjective_of_subset (fun x hx => (mem_languageStep.mp hx).1) h1
  have h3 : IdInjective (filterDistinctStep topicMatches (optTokens p.topic)
      (languageStep (optTokens p.language)
        (gutenbergStep (optTokens p.gutenberg_id) (orderByDownloadDesc store)))) :=
    idInjective_of_subset (fun x hx => subset_filterDistinctStep hx) h2
  have h4 : IdInjective (filterDistinctStep mimeMatches (optTokens p.mime_type)
      (filterDistinctStep topicMatches (optTokens p.topic)
        (languageStep (optTokens p.language)
          (gutenbergStep (optTokens p.gutenberg_id) (orderByDownloadDesc store))))) :=
    idInjective_of_subset (fun x hx => subset_filterDistinctStep hx) h3
  have h5 : IdInjective (filterDistinctStep authorMatches (optTokens p.author)
      (filterDistinctStep mimeMatches (optTokens p.mime_type)
        (filterDistinctStep topicMatches (optTokens p.topic)
          (languageStep (optTokens p.language)
            (gutenbergStep (optTokens p.gutenberg_id) (orderByDownloadDesc store)))))) :=
    idInjective_of_subset (fun x hx => subset_filterDistinctStep hx) h4
  rw [mem_filterDistinctStep h5, mem_filterDistinctStep h4, mem_filterDistinctStep h3,
    mem_filterDistinctStep h2, mem_languageStep, mem_gutenbergStep, mem_orderByDownloadDesc]
  simp only [specMatches, specGutenbergOK, specLanguageOK, specTopicOK, specMimeOK,
    specAuthorOK, specTitleOK, topicMatches_iff, mimeMatches_iff, authorMatches_iff,
    titleMatches_iff]
  constructor
  · rintro ⟨⟨⟨⟨⟨⟨hb, hG⟩, hL⟩, hT⟩, hM⟩, hA⟩, hTi⟩
    exact ⟨hb, hG, hL, hT, hM, hA, hTi⟩
  · rintro ⟨hb, hG, hL, hT, hM, hA, hTi⟩
    exact ⟨⟨⟨⟨⟨⟨hb, hG⟩, hL⟩, hT⟩, hM⟩, hA⟩, hTi⟩

/-- C6 witness: with `topic=child,adventure` and `author=twain` active, the
dual-language book is in the composed query, and the membership matches the
spec predicate. -/
theorem composeQuery_mem_iff_witness :
    (bookDual ∈ composeQuery [bookAlpha, bookDual]
        { emptyParams with topic := some "child,adventure", author := some "twain" } ↔
      bookDual ∈ [bookAlpha, bookDual] ∧
        specMatches
          { emptyParams with topic := some "child,adventure", author := some "twain" }
          bookDual) :=
  composeQuery_mem_iff [bookAlpha, bookDual]
    { emptyParams with topic := some "child,adventure", author := some "twain" }
    bookDual (by unfold IdInjective; decide)

/-! Preservation of the download-count order through the pipeline. -/

theorem downloadOrder_refl (a : BooksBook) : downloadOrder a a := by
  unfold downloadOrder
  cases a.download_count <;> simp [dcGe]

theorem pairwise_const_map {R : BooksBook → BooksBook → Prop} {x : BooksBook}
    (hx : R x x) (l : List String) : List.Pairwise R (l.map (fun _ => x)) := by
  induction l with
  | nil => exact List.Pairwise.nil
  | cons c cs ih =>
    refine List.Pairwise.cons ?_ ih
    intro y hy
    rcases List.mem_map.mp hy with ⟨_, _, rfl⟩
    exact hx

theorem pairwise_flatMap_dup {R : BooksBook → BooksBook → Prop}
    (hrefl : ∀ a, R a a) {l : List BooksBook} (hl : List.Pairwise R l)
    (f : BooksBook → List String) :
    List.Pairwise R (l.flatMap (fun a => (f a).map (fun _ => a))) := by
  induction l with
  | nil => exact List.Pairwise.nil
  | cons x xs ih =>
    rw [List.flatMap_cons, List.pairwise_append]
    rcases List.pairwise_cons.mp hl with ⟨hx, hxs⟩
    refine ⟨pairwise_const_map (hrefl x) _, ih hxs, ?_⟩
    intro a ha b hb
    rcases List.mem_map.mp ha with ⟨_, _, rfl⟩
    rcases List.mem_flatMap.mp hb with ⟨y, hy, hb'⟩
    rcases List.mem_map.mp hb' with ⟨_, _, rfl⟩
    exact hx y hy

theorem sublist_distinctByIdAux (seen : List Nat) (l : List BooksBook) :
    (distinctByIdAux seen l).Sublist l := by
  induction l generalizing seen with
  | nil => simp [distinctByIdAux]
  | cons b rest ih =>
    rw [distinctByIdAux]
    by_cases hm : b.id ∈ seen
    · rw [if_pos hm]
      exact (ih seen).cons b
    · rw [if_neg hm]
      exact (ih (b.id :: seen)).cons₂ b

theorem pairwise_gutenbergStep {ts : List String} {qs : List BooksBook}
    (h : List.Pairwise downloadOrder qs) :
    List.Pairwise downloadOrder (gutenbergStep ts qs) := by
  simp only [gutenbergStep]
  split
  · exact h
  · exact List.Pairwise.filter _ h

theorem pairwise_languageStep {ts : List String} {qs : List BooksBook}
    (h : List.Pairwise downloadOrder qs) :
    List.Pairwise downloadOrder (languageStep ts qs) := by
  simp only [languageStep]
  split
  · exact h
  · exact pairwise_flatMap_dup downloadOrder_refl h _

theorem pairwise_filterDistinctStep {m : List String → BooksBook → Bool} {ts : List String}
    {qs : List BooksBook} (h : List.Pairwise downloadOrder qs) :
    List.Pairwise downloadOrder (filterDistinctStep m ts qs) := by
  simp only [filterDistinctStep]
  split
  · exact h
  · exact List.Pairwise.sublist ((sublist_distinctByIdAux [] _).trans (List.filter_sublist _)) h

theorem pairwise_composeQuery (store : List BooksBook) (p : RequestParams) :
    List.Pairwise downloadOrder (composeQuery store p) := by
  rw [composeQuery_eq_steps]
  refine pairwise_filterDistinctStep (pairwise_filterDistinctStep
    (pairwise_filterDistinctStep (pairwise_filterDistinctStep
      (pairwise_languageStep (pairwise_gutenbergStep ?_)))))
  exact List.sorted_insertionSort downloadOrder store

/-- C5 counterexample: two stores holding the very same set of books, whose
two rows tie on download count, produce different list responses — the
ordering is not determined by the book set plus a Book-identity tiebreak;
`order_by('-download_count')` carries no tiebreak at all. -/
theorem orderHasNoIdTiebreak_counterexample :
    [bookTieOne, bookTieTwo].Perm [bookTieTwo, bookTieOne] ∧
      bookListView [bookTieOne, bookTieTwo] emptyParams ≠
        bookListView [bookTieTwo, bookTieOne] emptyParams :=
  ⟨by decide, by decide⟩

/-- C5 amended: the results of every successful list response are ordered by
download count descending (nulls lowest); no Book-identity tiebreak is
applied, so the relative order of tied rows follows the store's row order
and is not deterministic in the book set. -/
theorem resultsSortedByDownloadDesc (store : List BooksBook) (p : RequestParams)
    (r : ListResponse) (h : bookListView store p = ListOutcome.ok r) :
    List.Pairwise (fun x y : BookDTO => dcGe x.download_count y.download_count = true)
      r.results := by
  simp only [bookListView] at h
  cases hres : resolvePageNumber p.page
      (numPages (composeQuery store p).length (getPageSize p.page_size)) with
  | none =>
    rw [hres] at h
    exact absurd h (by simp)
  | some num =>
    rw [hres] at h
    simp only [ListOutcome.ok.injEq] at h
    rw [← h]
    have hq := pairwise_composeQuery store p
    have hslice := List.Pairwise.sublist
      ((List.take_sublist (getPageSize p.page_size)
          (List.drop ((num - 1) * getPageSize p.page_size) (composeQuery store p))).trans
        (List.drop_sublist ((num - 1) * getPageSize p.page_size) (composeQuery store p))) hq
    exact List.Pairwise.map serializeBook (fun a b hab => hab) hslice

/-- C5 amended witness: a store listed in ascending download order comes
back descending. -/
theorem resultsSortedByDownloadDesc_witness :
    List.Pairwise (fun x y : BookDTO => dcGe x.download_count y.download_count = true)
      (ListResponse.mk 2 none none [serializeBook bookAlpha, serializeBook bookBeta] 2).results :=
  resultsSortedByDownloadDesc [bookBeta, bookAlpha] emptyParams
    (ListResponse.mk 2 none none [serializeBook bookAlpha, serializeBook bookBeta] 2)
    (by decide)

/-! Invalid and out-of-range page numbers. -/

theorem parseIntPy_empty : parseIntPy "" = none := by decide

theorem parseIntPy_last : parseIntPy "last" = none := by decide

theorem one_le_getPageSize (raw : Option String) : 1 ≤ getPageSize raw := by
  cases raw with
  | none => decide
  | some s =>
    cases hp : parseIntPy s with
    | none => simp [getPageSize, hp]
    | some n =>
      simp only [getPageSize, hp]
      split <;> omega

theorem one_le_numPages (c per : Nat) (h : 1 ≤ per) : 1 ≤ numPages c per := by
  unfold numPages
  rw [Nat.one_le_div_iff h]
  omega

/-- C3 counterexample: with a single matching book and the default page
size, the request `page=2` exceeds the page range and is answered with the
404 outcome — not with a successful envelope carrying empty results. -/
theorem pageBeyondRange_counterexample :
    bookListView [bookAlpha] { emptyParams with page := some "2" } =
      ListOutcome.notFound := by decide

/-- C3 amended: a list request whose page number parses but exceeds the
available page range is answered with the 404 not-found outcome (DRF
converts the paginator's `InvalidPage` into `NotFound`), not with a
successful envelope of empty results. -/
theorem pageBeyondRange_notFound (store : List BooksBook) (p : RequestParams)
    (s : String) (n : Int) (hs : p.page = some s) (hn : parseIntPy s = some n)
    (hgt : numPages (composeQuery store p).length (getPageSize p.page_size) < n.toNat) :
    bookListView store p = ListOutcome.notFound := by
  have hne : s ≠ "" := by
    intro h
    rw [h, parseIntPy_empty] at hn
    exact Option.noConfusion hn
  have hnl : s ≠ "last" := by
    intro h
    rw [h, parseIntPy_last] at hn
    exact Option.noConfusion hn
  have hnp := one_le_numPages (composeQuery store p).length _ (one_le_getPageSize p.page_size)
  have h1 : ¬ n < 1 := by omega
  have hne1 : n ≠ 1 := by omega
  simp only [bookListView, hs, resolvePageNumber, if_neg hne, if_neg hnl, hn, if_neg h1,
    if_pos hgt, if_neg hne1]

/-- C3 amended witness: `page=3` against one matching book is a 404. -/
theorem pageBeyondRange_notFound_witness :
    bookListView [bookAlpha] { emptyParams with page := some "3" } = ListOutcome.notFound :=
  pageBeyondRange_notFound [bookAlpha] { emptyParams with page := some "3" } "3" 3
    (by decide) (by decide) (by decide)

/-- C8 counterexample: the invalid pagination value `page=abc` is answered
with the 404 outcome instead of falling back to the default page — which
the same request without `page` shows would have been a success. -/
theorem invalidPage_counterexample :
    bookListView [bookAlpha] { emptyParams with page := some "abc" } = ListOutcome.notFound ∧
      bookListView [bookAlpha] emptyParams =
        ListOutcome.ok (ListResponse.mk 1 none none [serializeBook bookAlpha] 1) :=
  ⟨by decide, by decide⟩

/-- C8 amended: `page` defaults to 1 when absent; `page_size` defaults to
25 when absent, non-integer or non-positive, and values above 100 are
clamped to 100 without an error; but an invalid `page` value (non-integer,
or below 1) is answered with a 404 error rather than falling back to the
default. -/
theorem paginationParamHandling :
    (∀ np : Nat, resolvePageNumber none np = some 1) ∧
    getPageSize none = 25 ∧
    (∀ s, parseIntPy s = none → getPageSize (some s) = 25) ∧
    (∀ s n, parseIntPy s = some n → n ≤ 0 → getPageSize (some s) = 25) ∧
    (∀ s n, parseIntPy s = some n → (100 : Int) ≤ n → getPageSize (some s) = 100) ∧
    (∀ store p s, RequestParams.page p = some s → s ≠ "" → s ≠ "last" →
      parseIntPy s = none → bookListView store p = ListOutcome.notFound) ∧
    (∀ store p s n, RequestParams.page p = some s → parseIntPy s = some n → n < 1 →
      bookListView store p = ListOutcome.notFound) := by
  refine ⟨fun np => rfl, rfl, ?_, ?_, ?_, ?_, ?_⟩
  · intro s hs
    simp [getPageSize, hs]
  · intro s n hs hn
    simp [getPageSize, hs, if_pos hn]
  · intro s n hs hn
    simp only [getPageSize, hs]
    rw [if_neg (by omega)]
    omega
  · intro store p s hps hne hnl hn
    simp only [bookListView, hps, resolvePageNumber, if_neg hne, if_neg hnl, hn]
  · intro store p s n hps hn h1
    have hne : s ≠ "" := by
      intro h
      rw [h, parseIntPy_empty] at hn
      exact Option.noConfusion hn
    have hnl : s ≠ "last" := by
      intro h
      rw [h, parseIntPy_last] at hn
      exact Option.noConfusion hn
    simp only [bookListView, hps, resolvePageNumber, if_neg hne, if_neg hnl, hn, if_pos h1]

/-- C8 amended witness: the defaulting, clamping and 404 branches at
concrete inputs. -/
theorem paginationParamHandling_witness :
    getPageSize (some "abc") = 25 ∧ getPageSize (some "500") = 100 ∧
      getPageSize (some "0") = 25 ∧ resolvePageNumber none 7 = some 1 ∧
      bookListView [bookBeta] { emptyParams with page := some "x1" } = ListOutcome.notFound ∧
      bookListView [bookBeta] { emptyParams with page := some "0" } = ListOutcome.notFound :=
  ⟨paginationParamHandling.2.2.1 "abc" (by decide),
   paginationParamHandling.2.2.2.2.1 "500" 500 (by decide) (by decide),
   paginationParamHandling.2.2.2.1 "0" 0 (by decide) (by decide),
   paginationParamHandling.1 7,
   paginationParamHandling.2.2.2.2.2.1 [bookBeta] _ "x1" (by decide) (by decide) (by decide)
     (by decide),
   paginationParamHandling.2.2.2.2.2.2 [bookBeta] _ "0" 0 (by decide) (by decide) (by decide)⟩

/-- C9: over any store with primary-key integrity, the detail request for
`{id}` is a 200 carrying the serialized DTO of the book whose identity is
`{id}` when such a book exists, and the distinct 404 not-found outcome
when no such book exists. -/
theorem bookDetailView_spec (store : List BooksBook) (pk : Nat)
    (hinj : IdInjective store) :
    (∀ b ∈ store, b.id = pk →
        bookDetailView store pk = DetailOutcome.ok (serializeBook b)) ∧
      ((∀ b ∈ store, b.id ≠ pk) → bookDetailView store pk = DetailOutcome.notFound) := by
  constructor
  · intro b hb hid
    rcases hf : store.find? (fun x => x.id == pk) with _ | c
    · rw [List.find?_eq_none] at hf
      exact absurd (by simp [hid]) (hf b hb)
    · have hceq : c.id = pk := by simpa using List.find?_some hf
      have hcb : c = b := hinj c (List.mem_of_find?_eq_some hf) b hb (by rw [hceq, hid])
      simp only [bookDetailView, hf, hcb]
  · intro hall
    rcases hf : store.find? (fun x => x.id == pk) with _ | c
    · simp only [bookDetailView, hf]
    · have hceq : c.id = pk := by simpa using List.find?_some hf
      exact absurd hceq (hall c (List.mem_of_find?_eq_some hf))

/-- C9 witness: detail hit on id 2, miss on id 9. -/
theorem bookDetailView_spec_witness :
    bookDetailView [bookAlpha, bookBeta] 2 = DetailOutcome.ok (serializeBook bookBeta) ∧
      bookDetailView [bookAlpha, bookBeta] 9 = DetailOutcome.notFound :=
  ⟨(bookDetailView_spec [bookAlpha, bookBeta] 2 (by unfold IdInjective; decide)).1 bookBeta
      (by decide) (by decide),
   (bookDetailView_spec [bookAlpha, bookBeta] 9 (by unfold IdInjective; decide)).2 (by decide)⟩

/-- C1 (code bug): with two matching books and `page_size=1`, the envelope's
`count` is 2 — the queryset's total row count, identical to `count_total` —
while the current page holds a single entry; the claim (and the view's own
response schema, "Number of books on current page") expects
`min(page_size, count_total - (page-1)*page_size) = min 1 (2-0) = 1`. -/
theorem countField_isTotal_notPageSize :
    bookListView [bookAlpha, bookBeta] { emptyParams with page_size := some "1" } =
      ListOutcome.ok
        (ListResponse.mk 2
          (some (makeLink { emptyParams with page_size := some "1" } (some 2))) none
          [serializeBook bookAlpha] 2) ∧
      ¬ ((2 : Nat) = min 1 (2 - 0)) :=
  ⟨by decide, by decide⟩

/-- C2 (code bug): the language filter step applies no `.distinct()`; with
`language=en,fr` a book related to both languages appears twice in
`results` — a Book identity repeated in one page. -/
theorem languageFilter_duplicatesBook :
    bookListView [bookDual] { emptyParams with language := some "en,fr" } =
      ListOutcome.ok
        (ListResponse.mk 2 none none [serializeBook bookDual, serializeBook bookDual] 2) ∧
      ¬ ([serializeBook bookDual, serializeBook bookDual].map BookDTO.id).Nodup :=
  ⟨by decide, by decide⟩

/-- C4 (code bug): with `language=en,fr` over a store holding one
dual-language book and one English book, `count_total` is 3 — the
join-inflated row count of the undeduplicated queryset — while the number
of distinct matching Book identities is 2. -/
theorem countTotal_inflatedByLanguageJoin :
    bookListView [bookDual, bookAlpha] { emptyParams with language := some "en,fr" } =
      ListOutcome.ok
        (ListResponse.mk 3 none none
          [serializeBook bookAlpha, serializeBook bookDual, serializeBook bookDual] 3) ∧
      (distinctById
        (composeQuery [bookDual, bookAlpha]
          { emptyParams with language := some "en,fr" })).length = 2 :=
  ⟨by decide, by decide⟩

/-- C7 (code bug): with `language=en,fr` and `page_size=1` over one
matching dual-language book, page 1 serves the book with `next` naming
page 2, and page 2 serves the very same book again before `next` becomes
null — the walk along `next` visits one matching Book twice. -/
theorem nextWalk_revisitsBook :
    bookListView [bookDual]
        { emptyParams with language := some "en,fr", page_size := some "1" } =
      ListOutcome.ok
        (ListResponse.mk 2
          (some (makeLink
            { emptyParams with language := some "en,fr", page_size := some "1" } (some 2)))
          none [serializeBook bookDual] 2) ∧
      bookListView [bookDual]
          ⟨none, some "en,fr", none, none, none, none, some "2", some "1"⟩ =
        ListOutcome.ok
          (ListResponse.mk 2 none
            (some (makeLink ⟨none, some "en,fr", none, none, none, none, some "2", some "1"⟩
              none))
            [serializeBook bookDual] 2) :=
  ⟨by decide, by decide⟩
